import Mathlib

/-!
Verification of the subtitle-proxy server core (search extractor, retrying
search service with cache, language filter, mirror download resolver, and
input validation) against its natural-language specification.

The JavaScript source is shallowly embedded: DOM queries performed through
cheerio are abstracted as pre-extracted fields of a row value (one field per
selector used by the code), and every string manipulation the code performs
(trim, replace, parseInt, includes, split, regex matches) is modelled by an
executable Lean function over the character list of the string, following
the ECMAScript semantics the code relies on (ASCII-faithful).
-/

set_option maxHeartbeats 1000000
set_option maxRecDepth 16384

/-! ## JavaScript string primitives -/

/-- Whitespace recognized by JS trim / parseInt / the regex class backslash-s
(ASCII part). -/
def isJsWs (c : Char) : Bool :=
  c = ' ' || c = '\t' || c = '\n' || c = '\r' || c.toNat = 11 || c.toNat = 12

/-- Character-list form of String.prototype.trim. -/
def trimL (cs : List Char) : List Char :=
  ((cs.dropWhile isJsWs).reverse.dropWhile isJsWs).reverse

/-- String.prototype.trim. -/
def jsTrim (s : String) : String := String.mk (trimL s.data)

/-- String.prototype.replace with a plain-string pattern and empty
replacement: removes the first occurrence only; identity when absent. -/
def replaceFirstL (pat : List Char) : List Char → List Char
  | [] => []
  | c :: cs =>
    if pat.isPrefixOf (c :: cs) then (c :: cs).drop pat.length
    else c :: replaceFirstL pat cs

/-- String.prototype.includes for a non-empty needle (substring test). -/
def containsL (pat : List Char) : List Char → Bool
  | [] => pat.isEmpty
  | c :: cs => pat.isPrefixOf (c :: cs) || containsL pat cs

/-- Value of a digit character under a given radix, as used by parseInt. -/
def digitVal? (radix : Nat) (c : Char) : Option Nat :=
  let v : Nat :=
    if '0' ≤ c ∧ c ≤ '9' then c.toNat - '0'.toNat
    else if 'a' ≤ c ∧ c ≤ 'z' then c.toNat - 'a'.toNat + 10
    else if 'A' ≤ c ∧ c ≤ 'Z' then c.toNat - 'A'.toNat + 10
    else 99
  if v < radix then some v else none

/-- Accumulate digit values into a natural number. -/
def natOfDigits (radix : Nat) (ds : List Nat) : Nat :=
  ds.foldl (fun acc d => acc * radix + d) 0

/-- parseInt digit-prefix parsing after sign and radix determination:
longest prefix of digits valid for the radix; NaN (none) when empty. -/
def parseIntCore (radix : Nat) (cs : List Char) : Option Nat :=
  let ds := cs.takeWhile (fun c => (digitVal? radix c).isSome)
  if ds.isEmpty then none
  else some (natOfDigits radix (ds.filterMap (digitVal? radix)))

/-- parseInt magnitude: a 0x / 0X prefix selects radix 16, else radix 10. -/
def jsParseIntMag (cs : List Char) : Option Nat :=
  match cs with
  | '0' :: 'x' :: rest => parseIntCore 16 rest
  | '0' :: 'X' :: rest => parseIntCore 16 rest
  | _ => parseIntCore 10 cs

/-- ECMAScript parseInt with no explicit radix: skip whitespace, optional
sign, optional hex prefix, longest digit prefix; none models NaN. -/
def jsParseIntL (cs : List Char) : Option Int :=
  match cs.dropWhile isJsWs with
  | [] => (jsParseIntMag []).map (fun n => Int.ofNat n)
  | c :: rest =>
    if c = '-' then (jsParseIntMag rest).map (fun n => -Int.ofNat n)
    else if c = '+' then (jsParseIntMag rest).map (fun n => Int.ofNat n)
    else (jsParseIntMag (c :: rest)).map (fun n => Int.ofNat n)

/-- parseInt on a String. -/
def jsParseInt (s : String) : Option Int := jsParseIntL s.data

/-- String.prototype.toLowerCase, charwise (ASCII-faithful). -/
def jsToLower (s : String) : String := String.mk (s.data.map Char.toLower)

/-- Truthiness test of an optional string attribute: JS treats an absent
attribute (undefined) and the empty string as falsy. -/
def jsFalsy : Option String → Bool
  | none => true
  | some s => s = ""

/-! ## Extractor (parseSearch in server.js, lines 72-158) -/

/-- Feature flags of a parsed row (presence of three marker images). -/
structure Features where
  hd : Bool
  hearingImpaired : Bool
  trusted : Bool
deriving DecidableEq, Repr

/-- A parsed subtitle record, exactly the object pushed by parseSearch. -/
structure SubtitleRecord where
  id : String
  title : String
  year : Option String
  language : String
  downloads : Int
  uploader : String
  uploadDate : Option String
  filename : Option String
  features : Features
deriving DecidableEq, Repr

/-- One table row of the results container, with each cheerio query the code
performs on the row abstracted as a pre-extracted field:
hasHeadClass models hasClass "head"; style, onclick, idAttr model the
corresponding attr calls (none = attribute absent); titleText is the text of
the first title anchor (empty when absent); flagClass is the class string of
the first flag element (none = no such element); downloadLinkText is the
text of the first subtitleserve link (none = no such link); uploaderText and
timeText are texts of the uploader anchor and time element (empty when
absent); spanTitle is the title attribute of the first titled span; the
three Bool fields model the marker-image presence checks. -/
structure RawRow where
  hasHeadClass : Bool
  style : Option String
  onclick : Option String
  idAttr : Option String
  titleText : String
  flagClass : Option String
  downloadLinkText : Option String
  uploaderText : String
  timeText : String
  spanTitle : Option String
  hdImg : Bool
  hearingImpairedImg : Bool
  trustedImg : Bool
deriving DecidableEq, Repr

/-- Leftmost match of the regex pattern-then-captured-digit-run: scans for
the literal pattern followed by at least one digit and returns the maximal
digit run there; a pattern occurrence with no digit after it is skipped, as
regex search resumes from the next position. Models onclick.match with
servOC and idAttr.match with name. -/
def scanCapture (pat : List Char) : List Char → Option String
  | [] => none
  | c :: cs =>
    if pat.isPrefixOf (c :: cs) then
      let ds := ((c :: cs).drop pat.length).takeWhile Char.isDigit
      if ds.isEmpty then scanCapture pat cs else some (String.mk ds)
    else scanCapture pat cs

/-- Lowercase ASCII letter test (the regex class a-z). -/
def isLowerAlpha (c : Char) : Bool := 'a' ≤ c && c ≤ 'z'

/-- Leftmost match of the flag language regex: literal flag, one or more
whitespace characters, then two lowercase letters (captured). -/
def scanFlagLang : List Char → Option (Char × Char)
  | [] => none
  | c :: cs =>
    if ("flag".data).isPrefixOf (c :: cs) then
      let rest := (c :: cs).drop 4
      let ws := rest.takeWhile isJsWs
      let rest2 := rest.dropWhile isJsWs
      if ws.isEmpty then scanFlagLang cs
      else
        match rest2 with
        | a :: b :: _ =>
          if isLowerAlpha a && isLowerAlpha b then some (a, b) else scanFlagLang cs
        | _ => scanFlagLang cs
    else scanFlagLang cs

/-- End-anchored year regex: succeeds when the title ends in an opening
paren, exactly four digits, and a closing paren, returning the title part
before the group and the four digits. -/
def yearSuffix? (cs : List Char) : Option (List Char × List Char) :=
  let n := cs.length
  if 6 ≤ n then
    match cs.drop (n - 6) with
    | ['(', d1, d2, d3, d4, ')'] =>
      if d1.isDigit && d2.isDigit && d3.isDigit && d4.isDigit then
        some (cs.take (n - 6), [d1, d2, d3, d4])
      else none
    | _ => none
  else none

/-- Subtitle id recovery: the onclick servOC code, falling back to the
numeric suffix of the id attribute (absent id attribute yields no match). -/
def rowId? (r : RawRow) : Option String :=
  match scanCapture ("servOC(".data) (r.onclick.getD "").data with
  | some i => some i
  | none =>
    match r.idAttr with
    | none => none
    | some idv => scanCapture ("name".data) idv.data

/-- Language extraction: the class string of the first flag element is
matched against the flag language regex; unknown when the element or the
match is absent. -/
def rowLanguage (r : RawRow) : String :=
  match r.flagClass with
  | none => "unknown"
  | some fc =>
    match scanFlagLang fc.data with
    | some (a, b) => String.mk [a, b]
    | none => "unknown"

/-- Download-count pipeline: trim the link text, remove the first x
occurrence, remove every comma, parseInt, defaulting to 0 when the link is
absent or the text does not parse (parseInt-or-0, and 0 stays 0). -/
def dlCount : Option String → Int
  | none => 0
  | some t =>
    match jsParseIntL ((replaceFirstL ['x'] (trimL t.data)).filter (fun c => c ≠ ',')) with
    | none => 0
    | some v => v

/-- Row admission and field extraction of parseSearch, one row: skip header,
hidden and onclick-less rows, skip rows without a recoverable id, extract
title/year (dropping the record when the title ends up empty), language,
downloads, uploader, upload date, filename, and the three features. -/
def parseRow (r : RawRow) : Option SubtitleRecord :=
  if r.hasHeadClass || r.style == some "display:none" || jsFalsy r.onclick then none
  else
    match rowId? r with
    | none => none
    | some id =>
      let t0 := jsTrim r.titleText
      let ty : String × Option String :=
        match yearSuffix? t0.data with
        | some (pre, ds) => (String.mk (trimL pre), some (String.mk ds))
        | none => (t0, none)
      if ty.1 = "" then none
      else
        some
          { id := id
            title := ty.1
            year := ty.2
            language := rowLanguage r
            downloads := dlCount r.downloadLinkText
            uploader := if jsTrim r.uploaderText = "" then "anonymous" else jsTrim r.uploaderText
            uploadDate := if jsTrim r.timeText = "" then none else some (jsTrim r.timeText)
            filename :=
              match r.spanTitle with
              | none => none
              | some s => if s = "" then none else some s
            features :=
              { hd := r.hdImg
                hearingImpaired := r.hearingImpairedImg
                trusted := r.trustedImg } }

/-- A document as seen by parseSearch: the raw source string, whether the
results-container element with the search-results id is present, and the
rows selected inside it (empty when the container is absent). -/
structure Doc where
  src : String
  hasResultsContainer : Bool
  rows : List RawRow
deriving DecidableEq, Repr

/-- The argument of parseSearch: either not a string at all (axios may hand
over a non-string body) or a string together with its parsed document. -/
inductive JSInput where
  | nonString
  | str (d : Doc)
deriving DecidableEq, Repr

/-- parseSearch (server.js lines 72-158): falsy or non-string input returns
the empty list; a nonempty string whose document lacks the results container
returns null (modelled none); otherwise the admitted rows. -/
def parseSearch : JSInput → Option (List SubtitleRecord)
  | .nonString => some []
  | .str d =>
    if d.src = "" then some []
    else if !d.hasResultsContainer then none
    else some (d.rows.filterMap parseRow)

/-! ## Search service (searchSubtitles with retry, part_001 lines 186-250,
and the cache used by it, plus filterByLanguage, lines 255-268) -/

/-- Comparator-induced order of the sort call: the JS comparator subtracting
downloads of the first from the second sorts by non-increasing downloads; a
stable sort keeps ties in place, and Array.prototype.sort is stable. -/
def dlLE (a b : SubtitleRecord) : Bool := b.downloads ≤ a.downloads

/-- The sort applied to freshly parsed results. -/
def sortByDownloads (l : List SubtitleRecord) : List SubtitleRecord :=
  l.mergeSort dlLE

/-- The search-result object assembled by searchSubtitles and, when a
language filter is applied, rebuilt by filterByLanguage (which adds the
language property; the fresh object has none). -/
structure SearchData where
  query : String
  page : Int
  language : Option String
  total : Nat
  fromCache : Bool
  results : List SubtitleRecord
deriving DecidableEq, Repr

/-- The error kinds createError is called with. -/
inductive ErrType where
  | network_error
  | search_failed
  | parse_failed
  | download_failed
deriving DecidableEq, Repr

/-- A typed error: kind, message, and the status captured by the
serialized debug snapshot when a response was observed. -/
structure TypedError where
  type : ErrType
  message : String
  debugStatus : Option Nat
deriving DecidableEq, Repr

/-- Outcome of one outbound fetch attempt: a transport-level exception or a
response whose every status is surfaced as data (validateStatus true). -/
inductive FetchOutcome where
  | transportError (msg : String)
  | response (status : Nat) (body : JSInput)

/-- The fixed identity pool of part_001 (userAgents, lines 30-36). -/
def userAgents : List String :=
  ["Mozilla/5.0 (Windows NT 10.0; Win64; x64) AppleWebKit/537.36 (KHTML, like Gecko) Chrome/122.0.0.0 Safari/537.36",
   "Mozilla/5.0 (Macintosh; Intel Mac OS X 10_15_7) AppleWebKit/605.1.15 (KHTML, like Gecko) Version/17.3.1 Safari/605.1.15",
   "Mozilla/5.0 (X11; Linux x86_64) AppleWebKit/537.36 (KHTML, like Gecko) Chrome/122.0.0.0 Safari/537.36",
   "Mozilla/5.0 (Windows NT 10.0; Win64; x64; rv:123.0) Gecko/20100101 Firefox/123.0",
   "Mozilla/5.0 (Macintosh; Intel Mac OS X 10_15_7) AppleWebKit/537.36 (KHTML, like Gecko) Chrome/122.0.0.0 Safari/537.36"]

/-- Per-attempt identity selection: each attempt draws a fresh random index
(modelled by the seed stream) and takes that pool entry, so a retry carries
a newly chosen identity. -/
def chosenIdentity (seed : Nat → Nat) (attempt : Nat) : String :=
  userAgents.getD (seed attempt % userAgents.length) ""

/-- The network error built in the catch branch. -/
def networkErr (msg : String) : TypedError :=
  { type := .network_error
    message := "Failed to reach OpenSubtitles: " ++ msg
    debugStatus := none }

/-- The search-failed error built for a non-200 status, carrying the
serialized status. -/
def searchFailedErr (status : Nat) : TypedError :=
  { type := .search_failed
    message := "OpenSubtitles returned status " ++ toString status
    debugStatus := some status }

/-- The parse-failed error built when parseSearch returns null. -/
def parseFailedErr (status : Nat) : TypedError :=
  { type := .parse_failed
    message := "Could not parse OpenSubtitles response. The site may have changed its structure or returned a captcha."
    debugStatus := some status }

/-- The fallback error of the final throw when no attempt recorded one. -/
def allAttemptsFailedErr : TypedError :=
  { type := .search_failed, message := "All attempts failed", debugStatus := none }

/-- The fresh SearchData assembled from sorted results. -/
def mkSearchData (query : String) (page : Int) (results : List SubtitleRecord) : SearchData :=
  { query := query
    page := page
    language := none
    total := results.length
    fromCache := false
    results := results }

/-- The retry loop body of searchSubtitles (part_001 lines 197-246): fuel
counts remaining attempts (cap 2 at the top entry), i is the index of the
next attempt, lastError the recorded failure; the pair returned carries the
result and the number of attempts issued. On a transport failure or a 403
status the loop records the failure and retries; any other non-200 status
breaks out at once, surfacing that failure; a null parse records
parse-failed and retries; a 200 parseable body is sorted and returned. -/
def searchLoop (env : Nat → FetchOutcome) (query : String) (page : Int) :
    Nat → Nat → Option TypedError → (Except TypedError SearchData) × Nat
  | 0, i, lastError => (.error (lastError.getD allAttemptsFailedErr), i)
  | fuel + 1, i, _ =>
    match env i with
    | .transportError msg =>
      searchLoop env query page fuel (i + 1) (some (networkErr msg))
    | .response status body =>
      if status ≠ 200 then
        if status = 403 then
          searchLoop env query page fuel (i + 1) (some (searchFailedErr status))
        else (.error (searchFailedErr status), i + 1)
      else
        match parseSearch body with
        | none => searchLoop env query page fuel (i + 1) (some (parseFailedErr status))
        | some results =>
          (.ok (mkSearchData query page (sortByDownloads results)), i + 1)

/-- The network path of searchSubtitles: the loop entered with attempt cap 2. -/
def runSearchNet (env : Nat → FetchOutcome) (query : String) (page : Int) :
    (Except TypedError SearchData) × Nat :=
  searchLoop env query page 2 0 none

/-- The failure the loop would record for one attempt outcome (none when the
outcome succeeds). -/
def attemptFailure : FetchOutcome → Option TypedError
  | .transportError msg => some (networkErr msg)
  | .response status body =>
    if status ≠ 200 then some (searchFailedErr status)
    else
      match parseSearch body with
      | none => some (parseFailedErr status)
      | some _ => none

/-- Whether an attempt outcome is a failure the loop retries after:
a transport failure, a 403 status, or an unparseable 200 body. -/
def retryableFailure : FetchOutcome → Bool
  | .transportError _ => true
  | .response status body =>
    if status = 403 then true
    else if status ≠ 200 then false
    else (parseSearch body).isNone

/-- The cache store (node-cache): key, stored value, expiry instant. -/
abbrev CacheState := List (String × SearchData × Nat)

/-- Cache lookup with lazy expiry: an entry whose expiry lies strictly
before now behaves as a miss. -/
def cacheGet (c : CacheState) (now : Nat) (k : String) : Option SearchData :=
  (c.find? (fun e => e.1 = k)).bind
    (fun e => if e.2.2 < now then none else some e.2.1)

/-- Cache write with a ttl: replaces any entry under the same key. -/
def cacheSet (c : CacheState) (k : String) (v : SearchData) (ttl now : Nat) : CacheState :=
  (k, v, now + ttl) :: c.filter (fun e => e.1 ≠ k)

/-- The cache key of a search (search_ query _page_ page). -/
def searchKey (query : String) (page : Int) : String :=
  "search_" ++ query ++ "_page_" ++ toString page

/-- Result triple of one searchSubtitles call: outcome, cache afterwards,
and the number of outbound attempts issued. -/
structure SrvOut where
  result : Except TypedError SearchData
  cache : CacheState
  attempts : Nat

/-- searchSubtitles (part_001 lines 186-250): a cache hit returns a copy of
the stored value retagged fromCache true and issues no attempt; a miss runs
the 2-attempt loop and caches a success under ttl 300. -/
def searchSubtitles (c : CacheState) (now : Nat) (env : Nat → FetchOutcome)
    (query : String) (page : Int) : SrvOut :=
  let key := searchKey query page
  match cacheGet c now key with
  | some cached => ⟨.ok { cached with fromCache := true }, c, 0⟩
  | none =>
    match runSearchNet env query page with
    | (.ok d, n) => ⟨.ok d, cacheSet c key d 300 now, n⟩
    | (.error e, n) => ⟨.error e, c, n⟩

/-- filterByLanguage (server.js lines 216-229): identity on a falsy or
all language, otherwise a new object with the case-insensitively matching
records, their count as total, and the language property set. -/
def filterByLanguage (d : SearchData) (lang : Option String) : SearchData :=
  match lang with
  | none => d
  | some l =>
    if l = "" || l = "all" then d
    else
      let filtered := d.results.filter (fun item => jsToLower item.language = jsToLower l)
      { d with language := some l, total := filtered.length, results := filtered }

/-! ## Download resolver (downloadSubtitle, server.js lines 234-278, and the
content-disposition filename regex) -/

/-- One mirror response: status, body bytes (modelled as characters,
ASCII-faithful), and the content-disposition header when present. -/
structure MirrorResponse where
  status : Nat
  body : String
  contentDisposition : Option String
deriving DecidableEq, Repr

/-- Outcome of fetching one mirror candidate. -/
inductive MirrorOutcome where
  | transportError
  | response (r : MirrorResponse)
deriving DecidableEq, Repr

/-- Case-insensitive literal-prefix test used by the i-flagged regex. -/
def lcIsPrefixOf (pat : List Char) (cs : List Char) : Bool :=
  pat.isPrefixOf (cs.take pat.length |>.map Char.toLower)

/-- The char class excluding semicolon, equals and newline. -/
def cdRunChar (c : Char) : Bool := c ≠ ';' && c ≠ '=' && c ≠ '\n'

/-- The char class excluding newline and both quote kinds. -/
def cdValChar (c : Char) : Bool := c ≠ '\n' && c ≠ '\'' && c ≠ '\x22'

/-- The value part of the filename regex after the equals sign: an optional
captured quote, a run of non-quote non-newline characters, then a
backreference to the quote. When an opening quote is not matched by a
closing one the engine backtracks the optional quote group to empty, making
the captured value empty. -/
def cdValue (cs : List Char) : List Char :=
  match cs with
  | q :: rest =>
    if q = '\'' || q = '\x22' then
      let v := rest.takeWhile cdValChar
      match rest.drop v.length with
      | q2 :: _ => if q2 = q then v else []
      | [] => []
    else cs.takeWhile cdValChar
  | [] => []

/-- Attempt of the filename regex at one position, after the literal: a run
of characters outside the excluded class, an equals sign, then the value. -/
def cdAfterName (cs : List Char) : Option (List Char) :=
  let run := cs.takeWhile cdRunChar
  match cs.drop run.length with
  | '=' :: rest => some (cdValue rest)
  | _ => none

/-- Leftmost match of the case-insensitive filename regex over the header:
at each position try the literal (case-insensitively) and the remainder;
on failure resume one character further. -/
def cdScan : List Char → Option (List Char)
  | [] => none
  | c :: cs =>
    if lcIsPrefixOf ("filename".data) (c :: cs) then
      match cdAfterName ((c :: cs).drop 8) with
      | some v => some v
      | none => cdScan cs
    else cdScan cs

/-- JS String.prototype.split on a dot. -/
def splitDot : List Char → List (List Char)
  | [] => [[]]
  | c :: t =>
    if c = '.' then [] :: splitDot t
    else
      match splitDot t with
      | h :: r => (c :: h) :: r
      | [] => [[c]]

/-- Extension resolution of the accepted candidate: default srt, replaced by
the lowercased final dot-segment of the content-disposition filename
parameter when the header is present, the regex matches, the captured value
is nonempty and the value contains a dot. -/
def cdExt (cd : Option String) : String :=
  match cd with
  | none => "srt"
  | some s =>
    match cdScan s.data with
    | none => "srt"
    | some v =>
      if v.isEmpty then "srt"
      else
        let parts := splitDot v
        if parts.length > 1 then jsToLower (String.mk (parts.getLastD [])) else "srt"

/-- The download result assembled on acceptance: body, extension, length. -/
structure DlResult where
  buffer : String
  ext : String
  size : Nat
deriving DecidableEq, Repr

/-- The download-failed error of the final throw. -/
def downloadFailedErr : TypedError :=
  { type := .download_failed
    message := "All download sources failed or returned invalid data."
    debugStatus := none }

/-- The marker test the code actually performs on the sampled prefix: the
exact strings html-tag in lowercase, and doctype in all-uppercase or
all-lowercase; mixed-case variants are not tested. -/
def hasExactHtmlMarker (body : String) : Bool :=
  let head := body.data.take 300
  containsL ("<html".data) head || containsL ("<!DOCTYPE".data) head ||
    containsL ("<!doctype".data) head

/-- The marker test as the specification words it: case-insensitive
html-tag or doctype in the sampled prefix. Stated from the spec for
comparison with the code's hasExactHtmlMarker. -/
def specHtmlMarker (body : String) : Bool :=
  let head := (body.data.take 300).map Char.toLower
  containsL ("<html".data) head || containsL ("<!doctype".data) head

/-- The candidate-rejection test (lines 252-259): non-200 status, empty
body, or an HTML-document marker inside the first 300 bytes. -/
def rejectResponse (r : MirrorResponse) : Bool :=
  r.status ≠ 200 || r.body.data.length = 0 || hasExactHtmlMarker r.body

/-- The result assembled from an accepted response. -/
def acceptResponse (r : MirrorResponse) : DlResult :=
  { buffer := r.body, ext := cdExt r.contentDisposition, size := r.body.data.length }

/-- The mirror iteration of downloadSubtitle: a transport failure or a
rejected response moves on to the next candidate; the first accepted
response is returned; exhaustion throws download-failed. -/
def downloadLoop : List MirrorOutcome → Except TypedError DlResult
  | [] => .error downloadFailedErr
  | .transportError :: rest => downloadLoop rest
  | .response r :: rest =>
    if rejectResponse r then downloadLoop rest
    else .ok (acceptResponse r)

/-- The download cache store (same node-cache instance, download namespace). -/
abbrev DlCache := List (String × DlResult × Nat)

/-- Download-cache lookup with lazy expiry. -/
def dlCacheGet (c : DlCache) (now : Nat) (k : String) : Option DlResult :=
  (c.find? (fun e => e.1 = k)).bind
    (fun e => if e.2.2 < now then none else some e.2.1)

/-- Download-cache write. -/
def dlCacheSet (c : DlCache) (k : String) (v : DlResult) (ttl now : Nat) : DlCache :=
  (k, v, now + ttl) :: c.filter (fun e => e.1 ≠ k)

/-- downloadSubtitle (lines 234-278): cache hit short-circuits; otherwise
the two mirror urls for the id are iterated in order (env lists their
outcomes) and a success is cached under ttl 600. -/
def downloadSubtitle (c : DlCache) (now : Nat) (id : String)
    (env : List MirrorOutcome) : (Except TypedError DlResult) × DlCache :=
  let key := "download_" ++ id
  match dlCacheGet c now key with
  | some v => (.ok v, c)
  | none =>
    match downloadLoop env with
    | .ok r => (.ok r, dlCacheSet c key r 600 now)
    | .error e => (.error e, c)

/-- The attachment filename set by the download route (line 643): always the
synthesized subtitle_ id . ext name; the resolver accepts no caller-supplied
filename hint anywhere in its signature or the route. -/
def downloadRouteFilename (id : String) (file : DlResult) : String :=
  "subtitle_" ++ id ++ "." ++ file.ext

/-! ## Input validation and the subtitle route pre-flight
(server.js lines 282-299 and 615-641) -/

/-- validateQuery: an error message for a missing, empty, blank or oversized
query; none when valid. -/
def validateQuery (q : Option String) : Option String :=
  match q with
  | none => some "Missing search query 'q'"
  | some s =>
    if s = "" then some "Missing search query 'q'"
    else if (jsTrim s).data.length = 0 then some "Search query cannot be empty"
    else if (jsTrim s).data.length > 200 then
      some "Search query is too long (max 200 characters)"
    else none

/-- validatePage: parseInt of the raw parameter with NaN and 0 both falling
back to 1, then a range check; none models rejection. -/
def validatePage (pageStr : Option String) : Option Int :=
  let v : Option Int :=
    match pageStr with
    | none => none
    | some s => jsParseInt s
  let page : Int :=
    match v with
    | none => 1
    | some n => if n = 0 then 1 else n
  if page < 1 || page > 100 then none else some page

/-- validateId: the trimmed id must be a nonempty digit string. -/
def validateId (id : Option String) : Bool :=
  match id with
  | none => false
  | some s =>
    if s = "" then false
    else
      let t := (jsTrim s).data
      !t.isEmpty && t.all Char.isDigit

/-- Pre-flight outcome of the search action: an immediate 400 response (no
outbound request is issued and no typed error is constructed) or the call
into searchSubtitles with the trimmed query and validated page. -/
inductive SearchRoute where
  | badRequest (msg : String)
  | searchCall (q : String) (page : Int)
deriving DecidableEq, Repr

/-- The search action of the subtitle route (lines 615-631) up to the
network call. -/
def handleSearch (q pageStr : Option String) : SearchRoute :=
  match validateQuery q with
  | some err => .badRequest err
  | none =>
    match validatePage pageStr with
    | none => .badRequest "Invalid page number. Must be between 1 and 100."
    | some p => .searchCall (jsTrim (q.getD "")) p

/-- Pre-flight outcome of the download action. -/
inductive DownloadRoute where
  | badRequest (msg : String)
  | downloadCall (id : String)
deriving DecidableEq, Repr

/-- The download action of the subtitle route (lines 634-641) up to the
network call. -/
def handleDownload (id : Option String) : DownloadRoute :=
  if !validateId id then
    .badRequest "Missing or invalid subtitle ID. Must be a numeric value."
  else .downloadCall (jsTrim (id.getD ""))

/-! ## Helper lemmas -/

theorem dlLE_trans : ∀ a b c : SubtitleRecord,
    dlLE a b = true → dlLE b c = true → dlLE a c = true := by
  intro a b c hab hbc
  simp only [dlLE, decide_eq_true_eq] at *
  exact le_trans hbc hab

theorem dlLE_total : ∀ a b : SubtitleRecord, (dlLE a b || dlLE b a) = true := by
  intro a b
  simp only [dlLE, Bool.or_eq_true, decide_eq_true_eq]
  exact le_total _ _

theorem sortByDownloads_pairwise (l : List SubtitleRecord) :
    List.Pairwise (fun a b => b.downloads ≤ a.downloads) (sortByDownloads l) := by
  have h := List.sorted_mergeSort dlLE_trans dlLE_total l
  exact h.imp (by intro a b hab; simpa [dlLE, decide_eq_true_eq] using hab)

theorem sortByDownloads_stable (l : List SubtitleRecord) (v : Int) :
    (sortByDownloads l).filter (fun r => r.downloads = v)
      = l.filter (fun r => r.downloads = v) := by
  have hpw : List.Pairwise (fun a b => dlLE a b = true)
      (l.filter (fun r => r.downloads = v)) := by
    apply List.pairwise_of_forall_mem_list
    intro a ha b hb
    have ha2 := (List.mem_filter.mp ha).2
    have hb2 := (List.mem_filter.mp hb).2
    simp only [decide_eq_true_eq] at ha2 hb2
    simp [dlLE, ha2, hb2]
  have hsub : (l.filter (fun r => r.downloads = v)).Sublist (sortByDownloads l) :=
    List.sublist_mergeSort dlLE_trans dlLE_total hpw (List.filter_sublist l)
  have hsub2 : (l.filter (fun r => r.downloads = v)).Sublist
      ((sortByDownloads l).filter (fun r => r.downloads = v)) := by
    have h := List.Sublist.filter (fun r => decide (r.downloads = v)) hsub
    simpa [List.filter_filter] using h
  have hlen : ((sortByDownloads l).filter (fun r => r.downloads = v)).length
      = (l.filter (fun r => r.downloads = v)).length :=
    ((List.mergeSort_perm l dlLE).filter _).length_eq
  exact (hsub2.eq_of_length hlen.symm).symm

theorem searchLoop_attempts_le (env : Nat → FetchOutcome) (q : String) (p : Int) :
    ∀ (fuel i : Nat) (le : Option TypedError),
      (searchLoop env q p fuel i le).2 ≤ i + fuel := by
  intro fuel
  induction fuel with
  | zero => intro i le; simp [searchLoop]
  | succ n ih =>
    intro i le
    unfold searchLoop
    cases henv : env i with
    | transportError m =>
      calc (searchLoop env q p n (i + 1) _).2 ≤ (i + 1) + n := ih _ _
        _ = i + (n + 1) := by omega
    | response status body =>
      by_cases h200 : status = 200
      · simp only [h200]
        cases hps : parseSearch body with
        | none =>
          simp only [if_neg (by omega : ¬(200 : Nat) ≠ 200)]
          calc (searchLoop env q p n (i + 1) _).2 ≤ (i + 1) + n := ih _ _
            _ = i + (n + 1) := by omega
        | some rs =>
          simp only [if_neg (by omega : ¬(200 : Nat) ≠ 200)]
          simp
      · by_cases h403 : status = 403
        · simp only [if_pos (by omega : status ≠ 200), h403, if_pos rfl]
          calc (searchLoop env q p n (i + 1) _).2 ≤ (i + 1) + n := ih _ _
            _ = i + (n + 1) := by omega
        · simp only [if_pos (by omega : status ≠ 200), if_neg h403]
          simp

theorem searchLoop_ok_shape (env : Nat → FetchOutcome) (q : String) (p : Int) :
    ∀ (fuel i : Nat) (le : Option TypedError) (d : SearchData),
      (searchLoop env q p fuel i le).1 = .ok d →
      ∃ rs, d = mkSearchData q p (sortByDownloads rs) := by
  intro fuel
  induction fuel with
  | zero => intro i le d h; simp [searchLoop] at h
  | succ n ih =>
    intro i le d h
    unfold searchLoop at h
    cases henv : env i with
    | transportError m =>
      simp only [henv] at h
      exact ih _ _ _ h
    | response status body =>
      simp only [henv] at h
      by_cases h200 : status = 200
      · rw [h200] at h
        simp only [if_neg (by omega : ¬(200 : Nat) ≠ 200)] at h
        cases hps : parseSearch body with
        | none => rw [hps] at h; exact ih _ _ _ h
        | some rs =>
          rw [hps] at h
          simp only [Except.ok.injEq] at h
          exact ⟨rs, h.symm⟩
      · by_cases h403 : status = 403
        · rw [if_pos (by omega : status ≠ 200), if_pos h403] at h
          exact ih _ _ _ h
        · rw [if_pos (by omega : status ≠ 200), if_neg h403] at h
          simp at h

theorem searchLoop_one_fail (env : Nat → FetchOutcome) (q : String) (p : Int)
    (i : Nat) (le : Option TypedError) (e : TypedError)
    (h : attemptFailure (env i) = some e) :
    searchLoop env q p 1 i le = (.error e, i + 1) := by
  unfold searchLoop
  cases henv : env i with
  | transportError m =>
    rw [henv] at h
    simp only [attemptFailure, Option.some.injEq] at h
    simp [searchLoop, h]
  | response status body =>
    rw [henv] at h
    simp only []
    by_cases h200 : status = 200
    · rw [h200] at h ⊢
      simp only [attemptFailure, if_neg (by omega : ¬(200 : Nat) ≠ 200)] at h
      simp only [if_neg (by omega : ¬(200 : Nat) ≠ 200)]
      cases hps : parseSearch body with
      | none =>
        rw [hps] at h
        simp only [Option.some.injEq] at h
        simp [searchLoop, h]
      | some rs => rw [hps] at h; simp at h
    · simp only [attemptFailure, if_pos (by omega : status ≠ 200),
        Option.some.injEq] at h
      rw [if_pos (by omega : status ≠ 200)]
      by_cases h403 : status = 403
      · rw [if_pos h403]
        simp [searchLoop, h]
      · rw [if_neg h403]
        simp [h]

theorem runSearchNet_retry_step (env : Nat → FetchOutcome) (q : String) (p : Int)
    (h : retryableFailure (env 0) = true) :
    ∃ e0 : TypedError,
      runSearchNet env q p = searchLoop env q p 1 1 (some e0) := by
  unfold runSearchNet
  show ∃ e0, searchLoop env q p (1 + 1) 0 none = searchLoop env q p 1 1 (some e0)
  unfold searchLoop
  cases henv : env 0 with
  | transportError m => exact ⟨networkErr m, rfl⟩
  | response status body =>
    rw [henv] at h
    simp only []
    by_cases h403 : status = 403
    · rw [if_pos (by rw [h403]; omega : status ≠ 200), if_pos h403]
      exact ⟨searchFailedErr status, rfl⟩
    · simp only [retryableFailure, if_neg h403] at h
      by_cases h200 : status = 200
      · rw [h200] at h ⊢
        simp only [if_neg (by omega : ¬(200 : Nat) ≠ 200)] at h ⊢
        simp only [Option.isNone_iff_eq_none] at h
        rw [h]
        exact ⟨parseFailedErr 200, rfl⟩
      · rw [if_pos (by omega : status ≠ 200)] at h
        simp at h

theorem searchLoop_one_attempts (env : Nat → FetchOutcome) (q : String) (p : Int)
    (i : Nat) (le : Option TypedError) :
    (searchLoop env q p 1 i le).2 = i + 1 := by
  unfold searchLoop
  cases henv : env i with
  | transportError m => simp [searchLoop]
  | response status body =>
    simp only []
    by_cases h200 : status = 200
    · rw [h200]
      simp only [if_neg (by omega : ¬(200 : Nat) ≠ 200)]
      cases hps : parseSearch body with
      | none => simp [searchLoop]
      | some rs => simp
    · by_cases h403 : status = 403
      · rw [if_pos (by omega : status ≠ 200), if_pos h403]
        simp [searchLoop]
      · rw [if_pos (by omega : status ≠ 200), if_neg h403]


theorem cacheGet_set_same (c : CacheState) (k : String) (v : SearchData)
    (ttl now now2 : Nat) (h : now2 ≤ now + ttl) :
    cacheGet (cacheSet c k v ttl now) now2 k = some v := by
  unfold cacheGet cacheSet
  rw [List.find?_cons_of_pos _ (by simp), Option.some_bind]
  exact if_neg (by show ¬ now + ttl < now2; omega)

theorem cacheGet_mem (c : CacheState) (now : Nat) (k : String) (v : SearchData)
    (h : cacheGet c now k = some v) : ∃ e ∈ c, e.2.1 = v := by
  unfold cacheGet at h
  cases hf : c.find? (fun e => e.1 = k) with
  | none => rw [hf, Option.none_bind] at h; exact absurd h (by simp)
  | some e =>
    rw [hf, Option.some_bind] at h
    by_cases ht : e.2.2 < now
    · rw [if_pos ht] at h; exact absurd h (by simp)
    · rw [if_neg ht] at h
      simp only [Option.some.injEq] at h
      exact ⟨e, List.mem_of_find?_eq_some hf, h⟩

theorem parseRow_some_fields (row : RawRow) (rec : SubtitleRecord)
    (h : parseRow row = some rec) :
    rec.downloads = dlCount row.downloadLinkText ∧ rec.language = rowLanguage row := by
  unfold parseRow at h
  split at h
  · exact absurd h (by simp)
  · cases hid : rowId? row with
    | none => rw [hid] at h; exact absurd h (by simp)
    | some id =>
      rw [hid] at h
      simp only [Option.some.injEq] at h
      split at h
      · exact absurd h (by simp)
      · simp only [Option.some.injEq] at h
        rw [← h]
        exact ⟨rfl, rfl⟩

theorem rowLanguage_shape (r : RawRow) :
    rowLanguage r = "unknown" ∨ (rowLanguage r).data.length = 2 := by
  cases hfc : r.flagClass with
  | none => left; simp [rowLanguage, hfc]
  | some fc =>
    cases h : scanFlagLang fc.data with
    | none => left; simp [rowLanguage, hfc, h]
    | some ab => right; simp [rowLanguage, hfc, h]

theorem rowLanguage_ne_all (r : RawRow) : rowLanguage r ≠ "all" := by
  rcases rowLanguage_shape r with h | h
  · rw [h]; decide
  · intro hc
    rw [hc] at h
    exact absurd h (by decide)

theorem mem_replaceFirstL (pat : List Char) :
    ∀ (cs : List Char) (c : Char), c ∈ replaceFirstL pat cs → c ∈ cs := by
  intro cs
  induction cs with
  | nil => intro c h; exact absurd h (by simp [replaceFirstL])
  | cons a t ih =>
    intro c h
    unfold replaceFirstL at h
    split at h
    · exact List.mem_of_mem_drop h
    · rcases List.mem_cons.mp h with h1 | h2
      · exact List.mem_cons.mpr (Or.inl h1)
      · exact List.mem_cons.mpr (Or.inr (ih _ h2))

theorem mem_trimL (cs : List Char) (c : Char) (h : c ∈ trimL cs) : c ∈ cs := by
  unfold trimL at h
  rw [List.mem_reverse] at h
  have h2 := (List.dropWhile_sublist isJsWs).subset h
  rw [List.mem_reverse] at h2
  exact (List.dropWhile_sublist isJsWs).subset h2

theorem jsParseIntL_neg (cs : List Char) (v : Int)
    (h : jsParseIntL cs = some v) (hv : v < 0) : '-' ∈ cs := by
  unfold jsParseIntL at h
  cases hd : cs.dropWhile isJsWs with
  | nil =>
    rw [hd] at h
    rw [Option.map_eq_some'] at h
    rcases h with ⟨n, _, hn⟩
    rw [← hn] at hv
    exact absurd hv (by exact not_lt.mpr (Int.natCast_nonneg n))
  | cons a rest =>
    rw [hd] at h
    simp only [] at h
    by_cases ha : a = '-'
    · have hmem : '-' ∈ cs.dropWhile isJsWs := by
        rw [hd, ha]
        exact List.mem_cons_self _ _
      exact (List.dropWhile_sublist isJsWs).subset hmem
    · rw [if_neg ha] at h
      by_cases hp : a = '+'
      · rw [if_pos hp, Option.map_eq_some'] at h
        rcases h with ⟨n, _, hn⟩
        rw [← hn] at hv
        exact absurd hv (by exact not_lt.mpr (Int.natCast_nonneg n))
      · rw [if_neg hp, Option.map_eq_some'] at h
        rcases h with ⟨n, _, hn⟩
        rw [← hn] at hv
        exact absurd hv (by exact not_lt.mpr (Int.natCast_nonneg n))

theorem dlCount_neg_mem (t : Option String) (hneg : dlCount t < 0) :
    ∃ s, t = some s ∧ '-' ∈ s.data := by
  cases t with
  | none => exact absurd hneg (by simp [dlCount])
  | some s =>
    refine ⟨s, rfl, ?_⟩
    have hneg2 :
        (match jsParseIntL ((replaceFirstL ['x'] (trimL s.data)).filter (fun c => c ≠ ',')) with
          | none => (0 : Int)
          | some v => v) < 0 := hneg
    cases hp : jsParseIntL ((replaceFirstL ['x'] (trimL s.data)).filter (fun c => c ≠ ',')) with
    | none => rw [hp] at hneg2; exact absurd hneg2 (by simp)
    | some v =>
      rw [hp] at hneg2
      have hm := jsParseIntL_neg _ _ hp hneg2
      have hm2 := List.mem_filter.mp hm
      exact mem_trimL _ _ (mem_replaceFirstL _ _ _ hm2.1)

theorem downloadLoop_ok_inv :
    ∀ (env : List MirrorOutcome) (res : DlResult),
      downloadLoop env = .ok res →
      ∃ r : MirrorResponse, rejectResponse r = false ∧ res = acceptResponse r := by
  intro env
  induction env with
  | nil => intro res h; exact absurd h (by simp [downloadLoop])
  | cons o rest ih =>
    intro res h
    cases o with
    | transportError => exact ih res h
    | response r =>
      unfold downloadLoop at h
      split at h
      · exact ih res h
      · next hrej =>
        simp only [Except.ok.injEq] at h
        exact ⟨r, by simpa using hrej, h.symm⟩

theorem filterByLanguage_results_cases (d : SearchData) (lang : Option String) :
    (filterByLanguage d lang).results = d.results ∨
    ∃ l : String, (filterByLanguage d lang).results
        = d.results.filter (fun item => jsToLower item.language = jsToLower l) := by
  cases lang with
  | none => exact Or.inl rfl
  | some l =>
    simp only [filterByLanguage]
    split
    · exact Or.inl rfl
    · exact Or.inr ⟨l, rfl⟩

/-! ## Claim theorems -/

/-- C1 (amended): for every nonempty input string, parseSearch returns null
exactly when the results-container marker is absent, and returns the empty
sequence when the marker is present but no row qualifies; however a falsy
input — the empty string, like a null or non-string body — short-circuits to
the empty sequence before the marker test, so the distinction holds only for
nonempty strings. -/
theorem parseSearch_marker_distinction (d : Doc) (hne : d.src ≠ "")
    (hrows : ∀ r ∈ d.rows, parseRow r = none) :
    (parseSearch (.str d) = none ↔ d.hasResultsContainer = false) ∧
    (d.hasResultsContainer = true → parseSearch (.str d) = some []) ∧
    parseSearch .nonString = some [] := by
  refine ⟨?_, ?_, rfl⟩
  · simp only [parseSearch, if_neg hne]
    cases hc : d.hasResultsContainer <;> simp
  · intro hc
    simp only [parseSearch, if_neg hne, hc, Bool.not_true, Bool.false_eq_true,
      if_false, Option.some.injEq, List.filterMap_eq_nil_iff]
    exact hrows

/-- C1 witness. -/
theorem parseSearch_marker_distinction_witness :
    (parseSearch (.str ⟨"x", true, []⟩) = none ↔
      (Doc.mk "x" true []).hasResultsContainer = false) ∧
    ((Doc.mk "x" true []).hasResultsContainer = true →
      parseSearch (.str ⟨"x", true, []⟩) = some []) ∧
    parseSearch .nonString = some [] :=
  parseSearch_marker_distinction ⟨"x", true, []⟩ (by decide) (by simp)

/-- C1 counterexample: the empty string lacks the results-container marker,
yet parseSearch returns the empty sequence rather than null, conflating the
two outcomes the claim says are never conflated. -/
theorem parseSearch_empty_string_conflation :
    parseSearch (.str ⟨"", false, []⟩) = some [] ∧
    (Doc.mk "" false []).hasResultsContainer = false :=
  ⟨rfl, rfl⟩

/-- C2: the fresh search results are sorted by non-increasing downloads and
the sort is stable (records of equal downloads keep their document order:
filtering the sorted list at any downloads value gives exactly the
same-value records in original order); a language filter of a sorted result
stays sorted; and every successful searchSubtitles outcome over a cache
whose entries are sorted is itself sorted (covering the cached path). -/
theorem search_results_sorted_stable (l : List SubtitleRecord) (v : Int)
    (d : SearchData) (lang : Option String) (c : CacheState) (now : Nat)
    (env : Nat → FetchOutcome) (q : String) (p : Int) (dOut : SearchData)
    (hd : List.Pairwise (fun a b => b.downloads ≤ a.downloads) d.results)
    (hc : ∀ e ∈ c, List.Pairwise (fun a b => b.downloads ≤ a.downloads) e.2.1.results)
    (hout : (searchSubtitles c now env q p).result = .ok dOut) :
    List.Pairwise (fun a b => b.downloads ≤ a.downloads) (sortByDownloads l) ∧
    (sortByDownloads l).filter (fun r => r.downloads = v)
      = l.filter (fun r => r.downloads = v) ∧
    List.Pairwise (fun a b => b.downloads ≤ a.downloads) (filterByLanguage d lang).results ∧
    List.Pairwise (fun a b => b.downloads ≤ a.downloads) dOut.results := by
  refine ⟨sortByDownloads_pairwise l, sortByDownloads_stable l v, ?_, ?_⟩
  · rcases filterByLanguage_results_cases d lang with h | ⟨fl, h⟩
    · rw [h]; exact hd
    · rw [h]; exact hd.sublist (List.filter_sublist _)
  · unfold searchSubtitles at hout
    cases hcg : cacheGet c now (searchKey q p) with
    | some cached =>
      simp only [hcg] at hout
      simp only [Except.ok.injEq] at hout
      rcases cacheGet_mem c now _ _ hcg with ⟨e, hin, hev⟩
      have := hc e hin
      rw [hev] at this
      rw [← hout]
      exact this
    | none =>
      simp only [hcg] at hout
      cases hrun : runSearchNet env q p with
      | mk fst snd =>
        cases fst with
        | error e => simp only [hrun] at hout; exact absurd hout (by simp)
        | ok dFresh =>
          simp only [hrun] at hout
          simp only [Except.ok.injEq] at hout
          have hshape := searchLoop_ok_shape env q p 2 0 none dFresh
            (by unfold runSearchNet at hrun; rw [hrun])
          rcases hshape with ⟨rs, hrs⟩
          rw [← hout, hrs]
          exact sortByDownloads_pairwise rs

/-- C2 witness. -/
theorem search_results_sorted_stable_witness :
    List.Pairwise (fun a b => b.downloads ≤ a.downloads) (sortByDownloads []) ∧
    (sortByDownloads []).filter (fun r => r.downloads = 0)
      = List.filter (fun r => r.downloads = 0) [] ∧
    List.Pairwise (fun a b => b.downloads ≤ a.downloads)
      (filterByLanguage (mkSearchData "q" 1 []) (some "en")).results ∧
    List.Pairwise (fun a b => b.downloads ≤ a.downloads)
      (mkSearchData "q" 1 []).results :=
  search_results_sorted_stable [] 0 (mkSearchData "q" 1 []) (some "en") [] 0
    (fun _ => .response 200 (.str ⟨"x", true, []⟩)) "q" 1 (mkSearchData "q" 1 [])
    (by simp [mkSearchData]) (by simp)
    (by simp [searchSubtitles, cacheGet, searchKey, runSearchNet, searchLoop,
      parseSearch, sortByDownloads, mkSearchData])

/-- C3: on the search path an HTTP 403 or a transport-level failure is
retried (a second attempt with a freshly drawn identity is issued), the
attempt cap is the fixed 2, any other non-200 status fails at once after a
single attempt surfacing that failure, and when both attempts fail the
failure surfaced to the caller is the one observed last. -/
theorem searchSubtitles_retry_policy (q : String) (p : Int)
    (envA envB envC : Nat → FetchOutcome) (s : Nat) (b : JSInput) (e1 : TypedError)
    (hA : retryableFailure (envA 0) = true)
    (hB : envB 0 = .response s b) (hB200 : s ≠ 200) (hB403 : s ≠ 403)
    (hC : retryableFailure (envC 0) = true)
    (hC1 : attemptFailure (envC 1) = some e1) :
    (∀ env : Nat → FetchOutcome, (runSearchNet env q p).2 ≤ 2) ∧
    (runSearchNet envA q p).2 = 2 ∧
    runSearchNet envB q p = (.error (searchFailedErr s), 1) ∧
    (runSearchNet envC q p).1 = .error e1 := by
  refine ⟨?_, ?_, ?_, ?_⟩
  · intro env
    simpa using searchLoop_attempts_le env q p 2 0 none
  · rcases runSearchNet_retry_step envA q p hA with ⟨e0, heq⟩
    rw [heq, searchLoop_one_attempts]
  · unfold runSearchNet searchLoop
    simp only [hB]
    rw [if_pos hB200, if_neg hB403]
  · rcases runSearchNet_retry_step envC q p hC with ⟨e0, heq⟩
    rw [heq, searchLoop_one_fail envC q p 1 (some e0) e1 hC1]

/-- C3 witness. -/
theorem searchSubtitles_retry_policy_witness :
    (∀ env : Nat → FetchOutcome, (runSearchNet env "q" 1).2 ≤ 2) ∧
    (runSearchNet (fun _ => .transportError "t") "q" 1).2 = 2 ∧
    runSearchNet (fun _ => .response 500 .nonString) "q" 1
      = (.error (searchFailedErr 500), 1) ∧
    (runSearchNet (fun i => if i = 0 then .response 403 .nonString
        else .transportError "u") "q" 1).1 = .error (networkErr "u") :=
  searchSubtitles_retry_policy "q" 1 (fun _ => .transportError "t")
    (fun _ => .response 500 .nonString)
    (fun i => if i = 0 then .response 403 .nonString else .transportError "u")
    500 .nonString (networkErr "u") rfl rfl (by decide) (by decide) rfl rfl

/-- C5: with the key absent from the cache, a first successful search call
returns its data tagged fromCache false and a second call with the same
query and page within the TTL window returns the identical results sequence
tagged fromCache true, issuing no further network attempt regardless of the
environment the second call would see. -/
theorem searchSubtitles_cache_fidelity (c : CacheState) (t0 t1 : Nat)
    (env env2 : Nat → FetchOutcome) (q : String) (p : Int) (d1 : SearchData)
    (hmiss : cacheGet c t0 (searchKey q p) = none)
    (h1 : (searchSubtitles c t0 env q p).result = .ok d1)
    (ht : t1 ≤ t0 + 300) :
    d1.fromCache = false ∧
    (searchSubtitles (searchSubtitles c t0 env q p).cache t1 env2 q p).result
      = .ok { d1 with fromCache := true } ∧
    (searchSubtitles (searchSubtitles c t0 env q p).cache t1 env2 q p).attempts = 0 ∧
    SearchData.results { d1 with fromCache := true } = d1.results := by
  cases hrun : runSearchNet env q p with
  | mk fst n =>
    cases fst with
    | error e =>
      exfalso
      unfold searchSubtitles at h1
      simp only [hmiss, hrun] at h1
      exact absurd h1 (by simp)
    | ok dF =>
      have hdf : dF = d1 := by
        unfold searchSubtitles at h1
        simp only [hmiss, hrun] at h1
        simpa using h1
      subst hdf
      have hcache : (searchSubtitles c t0 env q p).cache
          = cacheSet c (searchKey q p) dF 300 t0 := by
        unfold searchSubtitles
        simp only [hmiss, hrun]
      rcases searchLoop_ok_shape env q p 2 0 none dF
        (by unfold runSearchNet at hrun; rw [hrun]) with ⟨rs, hrs⟩
      have hfc : dF.fromCache = false := by rw [hrs]; rfl
      have hget := cacheGet_set_same c (searchKey q p) dF 300 t0 t1 ht
      refine ⟨hfc, ?_, ?_, rfl⟩
      · rw [hcache]
        unfold searchSubtitles
        simp only [hget]
      · rw [hcache]
        unfold searchSubtitles
        simp only [hget]

/-- C5 witness. -/
theorem searchSubtitles_cache_fidelity_witness :
    (mkSearchData "dune" 1 []).fromCache = false ∧
    (searchSubtitles
        (searchSubtitles [] 0 (fun _ => .response 200 (.str ⟨"x", true, []⟩)) "dune" 1).cache
        100 (fun _ => .transportError "down") "dune" 1).result
      = .ok { mkSearchData "dune" 1 [] with fromCache := true } ∧
    (searchSubtitles
        (searchSubtitles [] 0 (fun _ => .response 200 (.str ⟨"x", true, []⟩)) "dune" 1).cache
        100 (fun _ => .transportError "down") "dune" 1).attempts = 0 ∧
    SearchData.results { mkSearchData "dune" 1 [] with fromCache := true }
      = (mkSearchData "dune" 1 []).results :=
  searchSubtitles_cache_fidelity [] 0 100
    (fun _ => .response 200 (.str ⟨"x", true, []⟩)) (fun _ => .transportError "down")
    "dune" 1 (mkSearchData "dune" 1 []) rfl
    (by simp [searchSubtitles, cacheGet, searchKey, runSearchNet, searchLoop,
      parseSearch, sortByDownloads, mkSearchData])
    (by omega)

/-- C6: filterByLanguage is a pure case-insensitive equality filter on the
language field: it is a plain function whose type reaches neither the cache
nor any other state (so the input value and the cached canonical entry are
untouched by construction); its output keeps the invariant that total equals
the length of the results; for a real language the results are exactly the
case-insensitive matches of the input results; and applying it twice with
the same language yields the same output as applying it once. -/
theorem filterByLanguage_pure_filter (d : SearchData) (lang : Option String)
    (l : String) (hinv : d.total = d.results.length)
    (hl1 : l ≠ "") (hl2 : l ≠ "all") :
    (filterByLanguage d lang).total = (filterByLanguage d lang).results.length ∧
    (filterByLanguage d (some l)).results
      = d.results.filter (fun item => jsToLower item.language = jsToLower l) ∧
    filterByLanguage (filterByLanguage d lang) lang = filterByLanguage d lang := by
  refine ⟨?_, ?_, ?_⟩
  · cases lang with
    | none => exact hinv
    | some s =>
      simp only [filterByLanguage]
      split
      · exact hinv
      · rfl
  · simp only [filterByLanguage]
    rw [if_neg (by simp [hl1, hl2])]
  · cases lang with
    | none => rfl
    | some s =>
      by_cases hs : (s = "" ∨ s = "all")
      · have hb : (s = "" || s = "all") = true := by
          rcases hs with h | h <;> simp [h]
        simp [filterByLanguage, hb]
      · have hb : (s = "" || s = "all") = false := by
          rcases not_or.mp hs with ⟨h1, h2⟩
          simp [h1, h2]
        simp [filterByLanguage, hb, List.filter_filter]

/-- C6 witness. -/
theorem filterByLanguage_pure_filter_witness :
    ((filterByLanguage (mkSearchData "q" 1 []) (some "en")).total
      = (filterByLanguage (mkSearchData "q" 1 []) (some "en")).results.length) ∧
    (filterByLanguage (mkSearchData "q" 1 []) (some "en")).results
      = (mkSearchData "q" 1 []).results.filter
          (fun item => jsToLower item.language = jsToLower "en") ∧
    filterByLanguage (filterByLanguage (mkSearchData "q" 1 []) (some "en")) (some "en")
      = filterByLanguage (mkSearchData "q" 1 []) (some "en") :=
  filterByLanguage_pure_filter (mkSearchData "q" 1 []) (some "en") "en" rfl
    (by decide) (by decide)

/-- C10: a missing language or the literal all makes filterByLanguage
return the input itself, unfiltered and with total unchanged (the falsy
empty string as well); and indeed the language of an admitted record is
always either unknown or a two-letter code, so it can never equal all. -/
theorem filterByLanguage_all_identity (d : SearchData) (row : RawRow)
    (rec : SubtitleRecord) (h : parseRow row = some rec) :
    filterByLanguage d none = d ∧
    filterByLanguage d (some "all") = d ∧
    filterByLanguage d (some "") = d ∧
    (rec.language = "unknown" ∨ rec.language.data.length = 2) ∧
    rec.language ≠ "all" := by
  have hfield := (parseRow_some_fields row rec h).2
  refine ⟨rfl, by simp [filterByLanguage], by simp [filterByLanguage], ?_, ?_⟩
  · rw [hfield]; exact rowLanguage_shape row
  · rw [hfield]; exact rowLanguage_ne_all row

/-- C10 witness. -/
theorem filterByLanguage_all_identity_witness :
    filterByLanguage (mkSearchData "q" 1 []) none = mkSearchData "q" 1 [] ∧
    filterByLanguage (mkSearchData "q" 1 []) (some "all") = mkSearchData "q" 1 [] ∧
    filterByLanguage (mkSearchData "q" 1 []) (some "") = mkSearchData "q" 1 [] ∧
    ((SubtitleRecord.mk "7" "A" none "unknown" 0 "anonymous" none none
        ⟨false, false, false⟩).language = "unknown" ∨
      (SubtitleRecord.mk "7" "A" none "unknown" 0 "anonymous" none none
        ⟨false, false, false⟩).language.data.length = 2) ∧
    (SubtitleRecord.mk "7" "A" none "unknown" 0 "anonymous" none none
      ⟨false, false, false⟩).language ≠ "all" :=
  filterByLanguage_all_identity (mkSearchData "q" 1 [])
    ⟨false, none, some "servOC(7)", none, "A", none, none, "", "", none,
      false, false, false⟩
    (SubtitleRecord.mk "7" "A" none "unknown" 0 "anonymous" none none
      ⟨false, false, false⟩) rfl

/-- C8 (amended): for every row the extractor admits, the downloads field is
the integer obtained by trimming the link text, removing the first
occurrence of the multiplier marker x and every comma, and parsing an
integer prefix with parseInt semantics, defaulting to 0 when the link is
absent or the text does not parse; the extraction is a total function (never
raises), but parseInt honors a leading minus sign, so the value is an
integer that can be negative — negative only when the link text contains a
minus character. -/
theorem downloads_extraction (row : RawRow) (rec : SubtitleRecord)
    (h : parseRow row = some rec) :
    rec.downloads = dlCount row.downloadLinkText ∧
    (row.downloadLinkText = none → rec.downloads = 0) ∧
    (rec.downloads < 0 → ∃ s, row.downloadLinkText = some s ∧ '-' ∈ s.data) := by
  have hdl := (parseRow_some_fields row rec h).1
  refine ⟨hdl, ?_, ?_⟩
  · intro hn; rw [hdl, hn]; rfl
  · intro hneg
    rw [hdl] at hneg
    exact dlCount_neg_mem _ hneg

/-- C8 witness. -/
theorem downloads_extraction_witness :
    ((SubtitleRecord.mk "7" "A" none "unknown" 5432 "anonymous" none none
        ⟨false, false, false⟩).downloads = dlCount (some "5,432x") ∧
      (some "5,432x" = (none : Option String) →
        (SubtitleRecord.mk "7" "A" none "unknown" 5432 "anonymous" none none
          ⟨false, false, false⟩).downloads = 0) ∧
      ((SubtitleRecord.mk "7" "A" none "unknown" 5432 "anonymous" none none
          ⟨false, false, false⟩).downloads < 0 →
        ∃ s, (some "5,432x" : Option String) = some s ∧ '-' ∈ s.data)) :=
  downloads_extraction
    ⟨false, none, some "servOC(7)", none, "A", none, some "5,432x", "", "", none,
      false, false, false⟩
    (SubtitleRecord.mk "7" "A" none "unknown" 5432 "anonymous" none none
      ⟨false, false, false⟩) rfl

/-- C8 counterexample: an admitted row whose download-link text is the
numeral -5 produces a record with downloads equal to -5, a negative value:
the claim that the downloads field is always a non-negative integer fails
on the code, because parseInt accepts a leading minus sign. -/
theorem downloads_negative_counterexample :
    (parseRow ⟨false, none, some "servOC(7)", none, "A", none, some "-5", "", "",
        none, false, false, false⟩).map SubtitleRecord.downloads = some (-5) ∧
    (-5 : Int) < 0 :=
  ⟨rfl, by decide⟩

/-- C4 (amended): the download resolver rejects a candidate and proceeds to
the next one without raising exactly when the status is not 200, the body is
empty, or the 300-byte prefix contains one of the markers the code actually
tests — the exact lowercase html tag, or doctype in all-uppercase or
all-lowercase, a case-sensitive test rather than the case-insensitive one
the claim states; an accepted candidate is returned at once, and a
DownloadResult is never produced from a body whose prefix contains one of
those exact markers or whose body is empty. -/
theorem download_rejection_policy (rA rB : MirrorResponse)
    (rest restB env : List MirrorOutcome) (res : DlResult)
    (hA : rejectResponse rA = true) (hB : rejectResponse rB = false)
    (henv : downloadLoop env = .ok res) :
    (∀ r : MirrorResponse, rejectResponse r = true ↔
      (r.status ≠ 200 ∨ r.body.data.length = 0 ∨ hasExactHtmlMarker r.body = true)) ∧
    downloadLoop (.response rA :: rest) = downloadLoop rest ∧
    downloadLoop (.response rB :: restB) = .ok (acceptResponse rB) ∧
    hasExactHtmlMarker res.buffer = false ∧ res.size ≠ 0 := by
  have hchar : ∀ r : MirrorResponse, rejectResponse r = true ↔
      (r.status ≠ 200 ∨ r.body.data.length = 0 ∨ hasExactHtmlMarker r.body = true) := by
    intro r
    simp only [rejectResponse, Bool.or_eq_true, decide_eq_true_eq]
    tauto
  refine ⟨hchar, ?_, ?_, ?_⟩
  · have hstep : downloadLoop (MirrorOutcome.response rA :: rest)
        = if rejectResponse rA = true then downloadLoop rest
          else .ok (acceptResponse rA) := rfl
    rw [hstep, if_pos hA]
  · have hstep : downloadLoop (MirrorOutcome.response rB :: restB)
        = if rejectResponse rB = true then downloadLoop restB
          else .ok (acceptResponse rB) := rfl
    rw [hstep, if_neg (by simp [hB])]
  · rcases downloadLoop_ok_inv env res henv with ⟨r, hrej, hres⟩
    have hd : ¬(r.status ≠ 200 ∨ r.body.data.length = 0 ∨ hasExactHtmlMarker r.body = true) := by
      intro hcontra
      rw [← hchar r] at hcontra
      rw [hrej] at hcontra
      exact absurd hcontra (by simp)
    push_neg at hd
    rcases hd with ⟨_, hlen, hmark⟩
    rw [hres]
    exact ⟨by simpa using hmark, by simpa [acceptResponse] using hlen⟩

/-- C4 witness. -/
theorem download_rejection_policy_witness :
    (∀ r : MirrorResponse, rejectResponse r = true ↔
      (r.status ≠ 200 ∨ r.body.data.length = 0 ∨ hasExactHtmlMarker r.body = true)) ∧
    downloadLoop [.response ⟨404, "x", none⟩, .response ⟨200, "data", none⟩]
      = downloadLoop [.response ⟨200, "data", none⟩] ∧
    downloadLoop [.response ⟨200, "data", none⟩]
      = .ok (acceptResponse ⟨200, "data", none⟩) ∧
    hasExactHtmlMarker (acceptResponse ⟨200, "data", none⟩).buffer = false ∧
    (acceptResponse ⟨200, "data", none⟩).size ≠ 0 :=
  download_rejection_policy ⟨404, "x", none⟩ ⟨200, "data", none⟩
    [.response ⟨200, "data", none⟩] [] [.response ⟨200, "data", none⟩]
    (acceptResponse ⟨200, "data", none⟩) (by decide) (by decide) rfl

/-- C4 counterexample: a 200 response whose body prefix contains the
uppercase html tag passes the code's marker test, which checks only the
lowercase form, and a DownloadResult is produced from it, although the
prefix contains the claim's case-insensitive html marker. -/
theorem download_accepts_uppercase_html :
    downloadLoop [.response ⟨200, "<HTML>oops", none⟩]
      = .ok ⟨"<HTML>oops", "srt", 10⟩ ∧
    specHtmlMarker "<HTML>oops" = true :=
  ⟨rfl, rfl⟩

/-- C9 (amended): the download resolver accepts no caller-supplied filename
hint — its only inputs are the subtitle id and the mirror responses, and no
sanitization routine exists; on the first accepted candidate the extension
is the lowercased final dot-segment of the content-disposition filename
parameter when one is available, defaulting to srt (in particular whenever
the header is absent), and the attachment filename served by the route is
always the synthesized subtitle_(id).(ext), never the header filename
itself. -/
theorem download_filename_resolution (id : String) (r : MirrorResponse)
    (rest : List MirrorOutcome) (hacc : rejectResponse r = false) :
    downloadLoop (.response r :: rest) = .ok (acceptResponse r) ∧
    (acceptResponse r).ext = cdExt r.contentDisposition ∧
    (r.contentDisposition = none → (acceptResponse r).ext = "srt") ∧
    downloadRouteFilename id (acceptResponse r)
      = "subtitle_" ++ id ++ "." ++ cdExt r.contentDisposition := by
  refine ⟨?_, rfl, ?_, rfl⟩
  · have hstep : downloadLoop (MirrorOutcome.response r :: rest)
        = if rejectResponse r = true then downloadLoop rest
          else .ok (acceptResponse r) := rfl
    rw [hstep, if_neg (by simp [hacc])]
  · intro hcd
    simp [acceptResponse, cdExt, hcd]

/-- C9 witness. -/
theorem download_filename_resolution_witness :
    downloadLoop [.response ⟨200, "1 sub", some "attachment; filename=dune.srt"⟩]
      = .ok (acceptResponse ⟨200, "1 sub", some "attachment; filename=dune.srt"⟩) ∧
    (acceptResponse ⟨200, "1 sub", some "attachment; filename=dune.srt"⟩).ext
      = cdExt (some "attachment; filename=dune.srt") ∧
    ((some "attachment; filename=dune.srt" : Option String) = none →
      (acceptResponse ⟨200, "1 sub", some "attachment; filename=dune.srt"⟩).ext = "srt") ∧
    downloadRouteFilename "999"
        (acceptResponse ⟨200, "1 sub", some "attachment; filename=dune.srt"⟩)
      = "subtitle_" ++ "999" ++ "." ++ cdExt (some "attachment; filename=dune.srt") :=
  download_filename_resolution "999"
    ⟨200, "1 sub", some "attachment; filename=dune.srt"⟩ [] (by decide)

/-- C9 counterexample: with a content-disposition naming dune.srt, the
accepted result takes only the extension from the header; the served
attachment filename is the synthesized subtitle_999.srt and not the
header's dune.srt, and no hinted-filename input exists to override it —
refuting the claimed priority of a sanitized caller hint and of the header
filename over the synthesized name. -/
theorem download_filename_counterexample :
    downloadLoop [.response ⟨200, "1 sub", some "attachment; filename=dune.srt"⟩]
      = .ok ⟨"1 sub", "srt", 5⟩ ∧
    downloadRouteFilename "999" ⟨"1 sub", "srt", 5⟩ = "subtitle_999.srt" ∧
    "subtitle_999.srt" ≠ "dune.srt" :=
  ⟨rfl, rfl, by decide⟩

/-- C7 (amended): a missing, blank or oversized query, a page parameter
whose parsed integer is nonzero and outside 1..100 (negative or above 100),
and a non-numeric id are each rejected in the route pre-flight with a plain
validation message, before the search or download call is reached — the
badRequest outcome carries only a message string, never a TypedError, and
by construction issues no outbound request, since only the searchCall and
downloadCall outcomes invoke the network services; a page parameter parsing
to 0, however, is silently coerced to page 1 rather than rejected. -/
theorem preflight_validation (pAny : Option String)
    (sBlank : String) (hBlank : (jsTrim sBlank).data.length = 0)
    (sLong : String) (hLong : (jsTrim sLong).data.length > 200)
    (qOk : Option String) (hq : validateQuery qOk = none)
    (ps : String) (v : Int) (hv : jsParseInt ps = some v) (hv0 : v ≠ 0)
    (hvr : v < 1 ∨ v > 100)
    (idBad : Option String) (hid : validateId idBad = false) :
    handleSearch none pAny = .badRequest "Missing search query 'q'" ∧
    (∃ m, handleSearch (some sBlank) pAny = .badRequest m) ∧
    handleSearch (some sLong) pAny
      = .badRequest "Search query is too long (max 200 characters)" ∧
    handleSearch qOk (some ps)
      = .badRequest "Invalid page number. Must be between 1 and 100." ∧
    handleDownload idBad
      = .badRequest "Missing or invalid subtitle ID. Must be a numeric value." ∧
    (∀ (q2 p2 : Option String) (m2 : String) (qq : String) (pp : Int),
      handleSearch q2 p2 = .badRequest m2 → handleSearch q2 p2 ≠ .searchCall qq pp) := by
  refine ⟨rfl, ?_, ?_, ?_, ?_, ?_⟩
  · by_cases hb : sBlank = ""
    · exact ⟨"Missing search query 'q'", by simp [handleSearch, validateQuery, hb]⟩
    · exact ⟨"Search query cannot be empty",
        by simp [handleSearch, validateQuery, hb, hBlank]⟩
  · have hne : sLong ≠ "" := by
      intro he
      rw [he] at hLong
      exact absurd hLong (by decide)
    have hLong2 : 200 < (jsTrim sLong).length := hLong
    have h02 : ¬(jsTrim sLong).length = 0 := by
      intro hz
      exact absurd (hz ▸ hLong2) (by decide)
    simp [handleSearch, validateQuery, hne, h02, hLong2]
  · have hvp : validatePage (some ps) = none := by
      unfold validatePage
      simp only [hv]
      rw [if_neg hv0, if_pos ?_]
      rcases hvr with hlt | hgt
      · simp [hlt]
      · simp [hgt]
    simp [handleSearch, hq, hvp]
  · simp [handleDownload, hid]
  · intro q2 p2 m2 qq pp h1 h2
    rw [h1] at h2
    exact SearchRoute.noConfusion h2

/-- C7 witness. -/
theorem preflight_validation_witness :
    handleSearch none none = .badRequest "Missing search query 'q'" ∧
    (∃ m, handleSearch (some " ") none = .badRequest m) ∧
    handleSearch
        (some "aaaaaaaaaaaaaaaaaaaaaaaaaaaaaaaaaaaaaaaaaaaaaaaaaaaaaaaaaaaaaaaaaaaaaaaaaaaaaaaaaaaaaaaaaaaaaaaaaaaaaaaaaaaaaaaaaaaaaaaaaaaaaaaaaaaaaaaaaaaaaaaaaaaaaaaaaaaaaaaaaaaaaaaaaaaaaaaaaaaaaaaaaaaaaaaaaaaaaaaaa")
        none
      = .badRequest "Search query is too long (max 200 characters)" ∧
    handleSearch (some "dune") (some "101")
      = .badRequest "Invalid page number. Must be between 1 and 100." ∧
    handleDownload (some "12a")
      = .badRequest "Missing or invalid subtitle ID. Must be a numeric value." ∧
    (∀ (q2 p2 : Option String) (m2 : String) (qq : String) (pp : Int),
      handleSearch q2 p2 = .badRequest m2 → handleSearch q2 p2 ≠ .searchCall qq pp) :=
  preflight_validation none " " (by decide)
    "aaaaaaaaaaaaaaaaaaaaaaaaaaaaaaaaaaaaaaaaaaaaaaaaaaaaaaaaaaaaaaaaaaaaaaaaaaaaaaaaaaaaaaaaaaaaaaaaaaaaaaaaaaaaaaaaaaaaaaaaaaaaaaaaaaaaaaaaaaaaaaaaaaaaaaaaaaaaaaaaaaaaaaaaaaaaaaaaaaaaaaaaaaaaaaaaaaaaaaaaa"
    (by decide) (some "dune") (by decide) "101" 101 (by decide) (by decide)
    (by decide) (some "12a") (by decide)

/-- C7 counterexample: the page parameter 0 is out of the 1..100 range, yet
the route does not reject it: parseInt gives 0, which is falsy, so the
validator silently substitutes page 1 and the search call proceeds — an
out-of-range page that is not rejected before network access. -/
theorem page_zero_counterexample :
    jsParseInt "0" = some 0 ∧ ¬((1 : Int) ≤ 0) ∧
    handleSearch (some "dune") (some "0") = .searchCall "dune" 1 :=
  ⟨by decide, by decide, by decide⟩
